import Mathlib

/-!
Shallow embedding of `src/gp_workforce_by_la.py` (a pandas ETL pipeline that
aggregates GP workforce statistics by UK local authority) together with
verification of its specification's testable properties.

Strings model Python strings; pandas tables are lists of row records; pandas
missing values (NaN after `to_numeric(errors="coerce")` or a failed left
join) are `Option`/an explicit `PVal.nan`; float division by zero follows
IEEE/pandas semantics (`nonzero/0 = ±inf`, `0/0 = NaN`), with magnitudes
kept exact as rationals.
-/

/-! ## Python string primitives used by the pipeline -/

/-- The whitespace characters recognised by Python's `str.strip()` and the
regex class `\s` (ASCII range): space, tab, newline, carriage return,
vertical tab, form feed. -/
def pyIsSpace (c : Char) : Bool :=
  c == ' ' || c == '\t' || c == '\n' || c == '\r' ||
  c == Char.ofNat 11 || c == Char.ofNat 12

/-- Python `str.strip()`: drop leading and trailing whitespace. -/
def pyStrip (l : List Char) : List Char :=
  ((l.dropWhile pyIsSpace).reverse.dropWhile pyIsSpace).reverse

/-- Python `str.upper()` on the character list (basic latin, as in the data). -/
def pyUpper (l : List Char) : List Char :=
  l.map Char.toUpper

/-- `re.sub(r"\s+", "", s)`: remove every whitespace character. -/
def removeWs (l : List Char) : List Char :=
  l.filter (fun c => !pyIsSpace c)

/-- Postcode normalisation applied identically on every side of the joins
(`.str.strip().str.upper().str.replace(r"\s+", "", regex=True)`,
lines 227, 319, 573-575 and 590-595 of the source). -/
def normPostcode (s : String) : String :=
  ⟨removeWs (pyUpper (pyStrip s.data))⟩

/-- Workforce column-name normalisation (line 179 of the source):
`c.strip().upper().replace(" ", "_")`. -/
def normColumn (s : String) : String :=
  ⟨(pyUpper (pyStrip s.data)).map (fun c => if c == ' ' then '_' else c)⟩

/-- Is `pre` a prefix of `l` (on characters)? -/
def listPre : List Char → List Char → Bool
  | [], _ => true
  | _ :: _, [] => false
  | a :: as, b :: bs => a == b && listPre as bs

/-- Does `l` contain `needle` as a contiguous substring? -/
def listSub (needle : List Char) : List Char → Bool
  | [] => listPre needle []
  | b :: bs => listPre needle (b :: bs) || listSub needle bs

/-- Python's `needle in hay` substring test. -/
def strHasSub (needle hay : String) : Bool :=
  listSub needle.data hay.data

/-! ## `identify_gp_columns` (lines 476-532 of the source) -/

/-- The role-to-column mapping returned by `identify_gp_columns`; each field
is `none` when the Python dict lacks that key. -/
structure GpCols where
  practice_code : Option String
  postcode : Option String
  gp_fte : Option String
  gp_hc : Option String
deriving Repr, DecidableEq

/-- Exact-name candidates for the practice code column (line 483). -/
def practiceCodeCandidates : List String :=
  ["PRAC_CODE", "PRACTICE_CODE", "ORG_CODE", "ORGANISATION_CODE"]

/-- Exact-name candidates for the postcode column (line 495). -/
def postcodeCandidates : List String :=
  ["POSTCODE", "POST_CODE", "PRAC_POSTCODE"]

/-- Exact-name candidates for the total GP FTE column (line 501). -/
def gpFteCandidates : List String :=
  ["TOTAL_GP_FTE", "TOTAL_GPs_FTE", "ALL_GP_FTE", "TOTAL_FTE_GPS"]

/-- Exact-name candidates for the total GP headcount column (line 517). -/
def gpHcCandidates : List String :=
  ["TOTAL_GP_HC", "TOTAL_GPs_HC", "ALL_GP_HC", "TOTAL_HC_GPS"]

/-- `for candidate in cands: if candidate in cols: take it` -/
def pickExact (cands cols : List String) : Option String :=
  cands.find? (fun c => cols.contains c)

/-- `for c in cols: if p(c): take c` -/
def pickWhere (p : String → Bool) (cols : List String) : Option String :=
  cols.find? p

/-- Faithful translation of `identify_gp_columns`: ordered exact-name
candidates, then substring fallbacks, independently per role. -/
def identify_gp_columns (cols : List String) : GpCols where
  practice_code :=
    (pickExact practiceCodeCandidates cols).orElse fun _ =>
      pickWhere (fun c => strHasSub "PRAC" c && strHasSub "CODE" c) cols
  postcode := pickExact postcodeCandidates cols
  gp_fte :=
    ((pickExact gpFteCandidates cols).orElse fun _ =>
      pickWhere (fun c => strHasSub "GP" c && strHasSub "FTE" c &&
        strHasSub "TOTAL" c) cols).orElse fun _ =>
      pickWhere (fun c => strHasSub "GP" c && strHasSub "FTE" c) cols
  gp_hc :=
    ((pickExact gpHcCandidates cols).orElse fun _ =>
      pickWhere (fun c => strHasSub "GP" c && strHasSub "HC" c &&
        strHasSub "TOTAL" c) cols).orElse fun _ =>
      pickWhere (fun c => strHasSub "GP" c &&
        (strHasSub "HC" c || strHasSub "HEADCOUNT" c)) cols

/-! ## Pandas numeric cells (float semantics with exact magnitudes)

A numeric cell after `pd.to_numeric(..., errors="coerce")` or after an
arithmetic step is NaN, ±infinity, or a finite value (kept exact as a
rational; none of the verified properties depends on binary rounding of
magnitudes, only on the NaN/infinity/finite distinctions, which IEEE
arithmetic determines exactly). -/

inductive PVal where
  | nan : PVal
  | pinf : PVal
  | ninf : PVal
  | num : ℚ → PVal
deriving Repr, DecidableEq

/-- IEEE/pandas division: NaN propagates; `nonzero/0 = ±inf`, `0/0 = NaN`. -/
def PVal.div : PVal → PVal → PVal
  | .nan, _ => .nan
  | _, .nan => .nan
  | .num a, .num b =>
      if b = 0 then (if a = 0 then .nan else if 0 < a then .pinf else .ninf)
      else .num (a / b)
  | .pinf, .pinf => .nan
  | .pinf, .ninf => .nan
  | .ninf, .pinf => .nan
  | .ninf, .ninf => .nan
  | .pinf, .num b => if 0 ≤ b then .pinf else .ninf
  | .ninf, .num b => if 0 ≤ b then .ninf else .pinf
  | .num _, .pinf => .num 0
  | .num _, .ninf => .num 0

/-- IEEE/pandas multiplication: NaN propagates; `±inf * 0 = NaN`. -/
def PVal.mul : PVal → PVal → PVal
  | .nan, _ => .nan
  | _, .nan => .nan
  | .num a, .num b => .num (a * b)
  | .pinf, .num b => if b = 0 then .nan else if 0 < b then .pinf else .ninf
  | .num a, .pinf => if a = 0 then .nan else if 0 < a then .pinf else .ninf
  | .ninf, .num b => if b = 0 then .nan else if 0 < b then .ninf else .pinf
  | .num a, .ninf => if a = 0 then .nan else if 0 < a then .ninf else .pinf
  | .pinf, .pinf => .pinf
  | .pinf, .ninf => .ninf
  | .ninf, .pinf => .ninf
  | .ninf, .ninf => .pinf

/-- `numpy` rounding of a real value to an integer: round half to even. -/
def roundHalfEven (q : ℚ) : ℤ :=
  if Int.fract q < 1/2 then ⌊q⌋
  else if 1/2 < Int.fract q then ⌊q⌋ + 1
  else if Even ⌊q⌋ then ⌊q⌋ else ⌊q⌋ + 1

/-- `Series.round(1)`: round to one decimal place; NaN and infinities are
left unchanged. -/
def PVal.round1 : PVal → PVal
  | .nan => .nan
  | .pinf => .pinf
  | .ninf => .ninf
  | .num q => .num ((roundHalfEven (q * 10) : ℚ) / 10)

/-- `pd.isna` on a numeric cell: true exactly for NaN (infinities are NOT
missing values in pandas). -/
def PVal.isna : PVal → Bool
  | .nan => true
  | _ => false

/-- A `Population` cell after the left merge of line 651: a local authority
with no population row gets NaN. -/
def popCell : Option ℚ → PVal
  | none => .nan
  | some p => .num p

/-- The per-100k ratio computation of lines 654-661:
`(metric / population * 100_000).round(1)`. -/
def ratio_per_100k (metric pop : PVal) : PVal :=
  ((metric.div pop).mul (.num 100000)).round1

/-! ## Aggregation to local-authority level (lines 604-638)

A workforce row after the postcode→LA left merge carries its practice code,
the resolved LA code (`none` models a NaN `laua` for an unmatched row) and
the numeric-coerced FTE / headcount cells (`none` models NaN, which pandas
excludes from sums). -/

structure WRow where
  code : String
  laua : Option String
  fte : Option ℚ
  hc : Option ℚ
deriving Repr, DecidableEq

/-- `workforce[workforce["laua"].notna()]` (line 632). -/
def matchedRows (rows : List WRow) : List WRow :=
  rows.filter (fun r => r.laua.isSome)

/-- `workforce["laua"].isna().sum()` (line 606): the reported unmatched
count. -/
def countUnmatched (rows : List WRow) : Nat :=
  (rows.filter (fun r => r.laua.isNone)).length

/-- The distinct group keys of `groupby("laua")`.  (pandas additionally
sorts the keys; none of the verified properties depends on row order.) -/
def lauaKeys (rows : List WRow) : List String :=
  ((matchedRows rows).filterMap (fun r => r.laua)).dedup

/-- The rows of one `groupby` group. -/
def groupRows (rows : List WRow) (k : String) : List WRow :=
  (matchedRows rows).filter (fun r => r.laua == some k)

/-- pandas `sum` over a numeric column: NaN cells are skipped. -/
def sumOpt (l : List (Option ℚ)) : ℚ :=
  (l.filterMap id).sum

/-- pandas `nunique` over the practice-code column of a group: the number
of distinct values. -/
def numPractices (g : List WRow) : Nat :=
  (g.map WRow.code).dedup.length

/-- One output row of the aggregation (`la_summary`). -/
structure SummaryRow where
  LA_Code : String
  Num_Practices : Nat
  GP_Headcount : ℚ
  GP_FTE : ℚ
deriving Repr, DecidableEq

/-- Lines 616-638: group the matched rows by LA and aggregate
`{fte: sum, hc: sum, Practice_Code: nunique}`. -/
def aggregateByLA (rows : List WRow) : List SummaryRow :=
  (lauaKeys rows).map fun k =>
    { LA_Code := k
      Num_Practices := numPractices (groupRows rows k)
      GP_Headcount := sumOpt ((groupRows rows k).map WRow.hc)
      GP_FTE := sumOpt ((groupRows rows k).map WRow.fte) }

/-- The matched (LA code, practice code) pairs of a workforce table; a row
whose `laua` is NaN contributes nothing. -/
def matchedPairs (rows : List WRow) : List (String × String) :=
  rows.filterMap fun r => r.laua.map fun a => (a, r.code)

/-! ## Practice-postcode loader (epraccur, lines 190-230) -/

/-- The epraccur fields the loader consumes. -/
structure EpRow where
  org_code : String
  org_name : String
  postcode : String
  status_code : String
  prescribing_setting : String
deriving Repr, DecidableEq

/-- One row of the practice→postcode table returned by
`load_practice_postcodes`. -/
structure PracticeRow where
  practice_code : String
  postcode : String
  postcode_clean : String
deriving Repr, DecidableEq

/-- Python `str.strip` on a `String`. -/
def pyStripStr (s : String) : String :=
  ⟨pyStrip s.data⟩

/-- Lines 221-230: keep status `A`/`a`, keep prescribing setting `"4"`
(after string-strip), clean the postcode.  Note: NO deduplication by
organisation code is performed. -/
def load_practice_postcodes (rows : List EpRow) : List PracticeRow :=
  ((rows.filter fun r => r.status_code == "A" || r.status_code == "a").filter
    fun r => pyStripStr r.prescribing_setting == "4").map
    fun r => ⟨r.org_code, r.postcode, normPostcode r.postcode⟩

/-- The left merge of workforce practice codes onto the practice→postcode
table (lines 596-601): every matching right row duplicates the left row;
no match yields one row with a missing postcode. -/
def leftJoinPostcodes (w : List String) (prac : List PracticeRow) :
    List (String × Option String) :=
  w.flatMap fun code =>
    match prac.filter (fun p => p.practice_code == code) with
    | [] => [(code, none)]
    | ms => ms.map fun p => (code, some p.postcode_clean)

/-! ## NSPL postcode→LA loader (lines 238-323) -/

/-- One row of the NSPL lookup after projection to the two used columns. -/
structure NsplRow where
  postcode_clean : String
  laua : String
deriving Repr, DecidableEq

/-- pandas `drop_duplicates(subset=key)` (keep the first row of each key),
written with an accumulator of keys already seen. -/
def dropDupsBy {α : Type} (f : α → String) : List α → List String → List α
  | [], _ => []
  | x :: xs, seen =>
      if seen.contains (f x) then dropDupsBy f xs seen
      else x :: dropDupsBy f xs (f x :: seen)

/-- Lines 319-320: normalise the postcode and
`drop_duplicates(subset="Postcode_Clean")`. -/
def load_nspl (raw : List (String × String)) : List NsplRow :=
  dropDupsBy (fun n => n.postcode_clean)
    (raw.map fun pr => ⟨normPostcode pr.1, pr.2⟩) []

/-- The left merge of workforce rows (keyed by their possibly-missing
`Postcode_Clean`) onto the NSPL table (line 604). -/
def leftJoinNspl (w : List (Option String)) (nspl : List NsplRow) :
    List (Option String × Option String) :=
  w.flatMap fun pc =>
    match nspl.filter (fun n => (some n.postcode_clean : Option String) == pc) with
    | [] => [(pc, none)]
    | ms => ms.map fun n => (pc, some n.laua)

/-! ## Population loader (lines 370-468) and output columns (lines 640-674) -/

/-- The single population URL of the source (lines 47-52); the loader knows
no other URL. -/
def POPULATION_URL : String :=
  "https://www.ons.gov.uk/file?uri=/peoplepopulationandcommunity/populationandmigration/populationestimates/datasets/populationestimatesforukenglandandwalesscotlandandnorthernireland/mid2024/ukpopulationestimates18382024.xlsx"

/-- `load_population`, with its two effects abstracted as oracles: the
download attempt (lines 376-388, whose failure is caught and yields an
empty table) and the whole workbook-parsing `try` block (lines 394-468,
whose failure is caught at line 466 and yields an empty table).  The
result records the list of URLs requested and the returned table. -/
def load_population_trace (download : String → Except String Unit)
    (parse : Except String (List (String × ℚ))) :
    List String × List (String × ℚ) :=
  match download POPULATION_URL with
  | .error _ => ([POPULATION_URL], [])
  | .ok _ =>
      match parse with
      | .error _ => ([POPULATION_URL], [])
      | .ok t => ([POPULATION_URL], t)

/-- Columns of `la_summary` just before the final reordering: `LA_Code`
and `Num_Practices` always; the metric columns when identified (lines
616-629); `LA_Name` always (lines 642-645); `Population` and the two
ratio columns only when the population table is non-empty (lines
650-661). -/
def summaryColumns (hasFte hasHc : Bool) (population : List (String × ℚ)) :
    List String :=
  ["LA_Code"] ++ (if hasFte then ["GP_FTE"] else []) ++
    (if hasHc then ["GP_Headcount"] else []) ++ ["Num_Practices", "LA_Name"] ++
    (if population.isEmpty then [] else
      ["Population"] ++ (if hasFte then ["GP_FTE_per_100k"] else []) ++
        (if hasHc then ["GP_HC_per_100k"] else []))

/-- Lines 669-674: the final column order — `LA_Code`, `LA_Name`, then
each further column in a fixed presentation order if (and only if) it is
present in `la_summary`. -/
def finalColumns (hasFte hasHc : Bool) (population : List (String × ℚ)) :
    List String :=
  ["LA_Code", "LA_Name"] ++
    (["Num_Practices", "GP_Headcount", "GP_FTE", "Population",
      "GP_HC_per_100k", "GP_FTE_per_100k"].filter
      fun c => (summaryColumns hasFte hasHc population).contains c)


/-! ## Character-level facts about `Char.toUpper` -/

theorem toUpper_eq_self (c : Char)
    (h : ¬(97 ≤ c.toNat ∧ c.toNat ≤ 122)) : Char.toUpper c = c := by
  unfold Char.toUpper
  exact if_neg h

theorem toUpper_eq_ofNat (c : Char)
    (h : 97 ≤ c.toNat ∧ c.toNat ≤ 122) :
    Char.toUpper c = Char.ofNat (c.toNat - 32) := by
  unfold Char.toUpper
  exact if_pos h

theorem toUpper_not_in_lower_range (c : Char) :
    ¬(97 ≤ (Char.toUpper c).toNat ∧ (Char.toUpper c).toNat ≤ 122) := by
  by_cases h : 97 ≤ c.toNat ∧ c.toNat ≤ 122
  · rw [toUpper_eq_ofNat c h]
    obtain ⟨h1, h2⟩ := h
    generalize hg : c.toNat = n at h1 h2
    interval_cases n <;> decide
  · rw [toUpper_eq_self c h]
    exact h

theorem toUpper_toUpper (c : Char) :
    Char.toUpper (Char.toUpper c) = Char.toUpper c :=
  toUpper_eq_self _ (toUpper_not_in_lower_range c)

theorem toUpper_ne_s (c : Char) : Char.toUpper c ≠ 's' := by
  intro h
  have h2 := toUpper_not_in_lower_range c
  rw [h] at h2
  exact h2 (by decide)

theorem toUpper_of_space (c : Char) (h : pyIsSpace c = true) :
    Char.toUpper c = c := by
  simp only [pyIsSpace, Bool.or_eq_true, beq_iff_eq] at h
  rcases h with ((((h | h) | h) | h) | h) | h <;> subst h <;> decide

/-! ## The strip / upper / de-space pipeline commutes and is stable -/

theorem removeWs_pyUpper_dropWhile (l : List Char) :
    removeWs (pyUpper (l.dropWhile pyIsSpace)) = removeWs (pyUpper l) := by
  induction l with
  | nil => rfl
  | cons c t ih =>
    by_cases h : pyIsSpace c = true
    · rw [List.dropWhile_cons_of_pos h, ih]
      simp [pyUpper, removeWs, toUpper_of_space c h, h]
    · rw [List.dropWhile_cons_of_neg h]

theorem removeWs_pyUpper_reverse (l : List Char) :
    removeWs (pyUpper l.reverse) = (removeWs (pyUpper l)).reverse := by
  simp [pyUpper, removeWs, List.map_reverse, List.filter_reverse]

theorem removeWs_pyUpper_pyStrip (l : List Char) :
    removeWs (pyUpper (pyStrip l)) = removeWs (pyUpper l) := by
  unfold pyStrip
  rw [removeWs_pyUpper_reverse, removeWs_pyUpper_dropWhile,
    removeWs_pyUpper_reverse, removeWs_pyUpper_dropWhile,
    List.reverse_reverse]

theorem removeWs_pyUpper_stable (m : List Char) :
    removeWs (pyUpper (removeWs (pyUpper m))) = removeWs (pyUpper m) := by
  have hu : Char.toUpper ∘ Char.toUpper = Char.toUpper :=
    funext toUpper_toUpper
  unfold removeWs pyUpper
  rw [List.filter_map, List.filter_map, List.filter_map, List.map_map,
    Function.comp_assoc, hu, List.filter_filter]
  simp [Function.comp_def]

theorem normPostcode_data (s : String) :
    (normPostcode s).data = removeWs (pyUpper (pyStrip s.data)) := rfl

/-- C5: postcode normalisation is idempotent, and two postcodes that agree
up to whitespace and letter case (that is, whose characters agree after
uppercasing and removing every whitespace character) normalise to the same
string, hence carry the same key in the exact-match joins of lines 604 and
596-601. -/
theorem C5_normalize_postcode :
    (∀ s : String, normPostcode (normPostcode s) = normPostcode s) ∧
    (∀ s t : String,
      removeWs (pyUpper s.data) = removeWs (pyUpper t.data) →
      normPostcode s = normPostcode t) := by
  constructor
  · intro s
    apply congrArg String.mk
    rw [removeWs_pyUpper_pyStrip]
    exact removeWs_pyUpper_stable (pyStrip s.data)
  · intro s t h
    apply congrArg String.mk
    rw [removeWs_pyUpper_pyStrip, removeWs_pyUpper_pyStrip, h]

/-- Witness for C5 at concrete inputs: `"sw1a 1aa"` and `"SW1A  1AA"`
differ only in case and internal whitespace, and normalise identically. -/
theorem C5_normalize_postcode_witness :
    removeWs (pyUpper "sw1a 1aa".data) = removeWs (pyUpper "SW1A  1AA".data) ∧
    normPostcode "sw1a 1aa" = normPostcode "SW1A  1AA" :=
  ⟨by decide, C5_normalize_postcode.2 "sw1a 1aa" "SW1A  1AA" (by decide)⟩

/-! ## Unreachable mixed-case candidates (C10) -/

theorem normColumn_no_s (x : String) : 's' ∉ (normColumn x).data := by
  intro hmem
  have : (normColumn x).data =
      (pyUpper (pyStrip x.data)).map (fun c => if c == ' ' then '_' else c) :=
    rfl
  rw [this] at hmem
  rw [List.mem_map] at hmem
  obtain ⟨c, hc, hcs⟩ := hmem
  rw [pyUpper, List.mem_map] at hc
  obtain ⟨d, _, hd⟩ := hc
  subst hd
  by_cases hsp : (Char.toUpper d == ' ') = true
  · rw [if_pos hsp] at hcs
    exact absurd hcs (by decide)
  · rw [if_neg hsp] at hcs
    exact toUpper_ne_s d hcs

/-- C10: since `load_gp_workforce` uppercases every column name (line 179),
no normalised column can ever equal the mixed-case exact candidates
`"TOTAL_GPs_FTE"` / `"TOTAL_GPs_HC"`, so those two branches of
`identify_gp_columns` are unreachable; a column published as
`"Total GPs FTE"` / `"Total GPs HC"` normalises to `"TOTAL_GPS_FTE"` /
`"TOTAL_GPS_HC"`, misses every exact candidate, and is resolved only by the
substring fallback. -/
theorem C10_mixed_case_candidates :
    (∀ x : String,
      normColumn x ≠ "TOTAL_GPs_FTE" ∧ normColumn x ≠ "TOTAL_GPs_HC") ∧
    normColumn "Total GPs FTE" = "TOTAL_GPS_FTE" ∧
    normColumn "Total GPs HC" = "TOTAL_GPS_HC" ∧
    pickExact gpFteCandidates ["TOTAL_GPS_FTE", "TOTAL_GPS_HC"] = none ∧
    pickExact gpHcCandidates ["TOTAL_GPS_FTE", "TOTAL_GPS_HC"] = none ∧
    (identify_gp_columns ["TOTAL_GPS_FTE", "TOTAL_GPS_HC"]).gp_fte =
      some "TOTAL_GPS_FTE" ∧
    (identify_gp_columns ["TOTAL_GPS_FTE", "TOTAL_GPS_HC"]).gp_hc =
      some "TOTAL_GPS_HC" := by
  refine ⟨?_, by decide, by decide, by decide, by decide, by decide, by decide⟩
  intro x
  constructor <;>
    · intro h
      have hs := normColumn_no_s x
      rw [h] at hs
      exact hs (by decide)

/-- Witness for C10 at a concrete input: the published name
`"Total GPs FTE"` never hits the mixed-case candidate. -/
theorem C10_mixed_case_candidates_witness :
    normColumn "Total GPs FTE" ≠ "TOTAL_GPs_FTE" :=
  (C10_mixed_case_candidates.1 "Total GPs FTE").1

/-! ## C4: resolvable practice code, never-guessed metric columns -/

theorem pickExact_eq_none_of (cands cols : List String)
    (h : ∀ c ∈ cands, c ∉ cols) : pickExact cands cols = none := by
  rw [pickExact, List.find?_eq_none]
  intro c hc hcont
  rw [List.contains_iff_exists_mem_beq] at hcont
  obtain ⟨d, hd, hbeq⟩ := hcont
  rw [beq_iff_eq] at hbeq
  exact h c hc (hbeq ▸ hd)

/-- C4: whenever a practice-code column is resolvable — an exact candidate
name occurs among the columns, or some column name contains both `"PRAC"`
and `"CODE"` — the returned mapping has the `practice_code` role; and
whenever no column name contains both `"GP"` and `"FTE"` (respectively
`"GP"` and `"HC"`/`"HEADCOUNT"`), the `gp_fte` (respectively `gp_hc`) role
is absent, never guessed. -/
theorem C4_identify_columns (cols : List String) :
    ((∃ c ∈ practiceCodeCandidates, c ∈ cols) ∨
      (∃ c ∈ cols, strHasSub "PRAC" c = true ∧ strHasSub "CODE" c = true) →
      (identify_gp_columns cols).practice_code.isSome = true) ∧
    ((∀ c ∈ cols, ¬(strHasSub "GP" c = true ∧ strHasSub "FTE" c = true)) →
      (identify_gp_columns cols).gp_fte = none) ∧
    ((∀ c ∈ cols, ¬(strHasSub "GP" c = true ∧
        (strHasSub "HC" c = true ∨ strHasSub "HEADCOUNT" c = true))) →
      (identify_gp_columns cols).gp_hc = none) := by
  refine ⟨?_, ?_, ?_⟩
  · intro h
    show ((pickExact practiceCodeCandidates cols).orElse _).isSome = true
    cases hex : pickExact practiceCodeCandidates cols with
    | some c => rfl
    | none =>
      rcases h with ⟨c, hc1, hc2⟩ | ⟨c, hc1, hc2, hc3⟩
      · exfalso
        rw [pickExact, List.find?_eq_none] at hex
        exact hex c hc1 (List.contains_iff_exists_mem_beq.mpr ⟨c, hc2, by simp⟩)
      · show (Option.orElse none _).isSome = true
        simp only [Option.orElse, Option.isSome]
        have : (pickWhere
            (fun c => strHasSub "PRAC" c && strHasSub "CODE" c) cols).isSome =
            true := by
          rw [pickWhere, List.find?_isSome]
          exact ⟨c, hc1, by rw [hc2, hc3]; rfl⟩
        cases hw : pickWhere
            (fun c => strHasSub "PRAC" c && strHasSub "CODE" c) cols with
        | some d => rfl
        | none => rw [hw] at this; exact absurd this (by decide)
  · intro h
    show ((pickExact gpFteCandidates cols).orElse _).orElse _ = none
    have h1 : pickExact gpFteCandidates cols = none := by
      refine pickExact_eq_none_of _ _ ?_
      intro c hc hmem
      fin_cases hc <;> exact h _ hmem (by constructor <;> decide)
    have h2 : pickWhere (fun c => strHasSub "GP" c && strHasSub "FTE" c &&
        strHasSub "TOTAL" c) cols = none := by
      rw [pickWhere, List.find?_eq_none]
      intro c hc hb
      simp only [Bool.and_eq_true] at hb
      exact h c hc ⟨hb.1.1, hb.1.2⟩
    have h3 : pickWhere (fun c => strHasSub "GP" c && strHasSub "FTE" c)
        cols = none := by
      rw [pickWhere, List.find?_eq_none]
      intro c hc hb
      simp only [Bool.and_eq_true] at hb
      exact h c hc ⟨hb.1, hb.2⟩
    rw [h1, h2, h3]
    rfl
  · intro h
    show ((pickExact gpHcCandidates cols).orElse _).orElse _ = none
    have h1 : pickExact gpHcCandidates cols = none := by
      refine pickExact_eq_none_of _ _ ?_
      intro c hc hmem
      fin_cases hc <;>
        exact h _ hmem ⟨by decide, Or.inl (by decide)⟩
    have h2 : pickWhere (fun c => strHasSub "GP" c && strHasSub "HC" c &&
        strHasSub "TOTAL" c) cols = none := by
      rw [pickWhere, List.find?_eq_none]
      intro c hc hb
      simp only [Bool.and_eq_true] at hb
      exact h c hc ⟨hb.1.1, Or.inl hb.1.2⟩
    have h3 : pickWhere (fun c => strHasSub "GP" c &&
        (strHasSub "HC" c || strHasSub "HEADCOUNT" c)) cols = none := by
      rw [pickWhere, List.find?_eq_none]
      intro c hc hb
      simp only [Bool.and_eq_true, Bool.or_eq_true] at hb
      exact h c hc ⟨hb.1, hb.2⟩
    rw [h1, h2, h3]
    rfl

/-- Witness for C4 at a concrete column list: `["PRACTICE_CODE", "REGION"]`
has a resolvable practice code and no GP metric columns. -/
theorem C4_identify_columns_witness :
    ((∃ c ∈ practiceCodeCandidates, c ∈ ["PRACTICE_CODE", "REGION"]) ∨
      (∃ c ∈ ["PRACTICE_CODE", "REGION"],
        strHasSub "PRAC" c = true ∧ strHasSub "CODE" c = true)) ∧
    (∀ c ∈ ["PRACTICE_CODE", "REGION"],
      ¬(strHasSub "GP" c = true ∧ strHasSub "FTE" c = true)) ∧
    (∀ c ∈ ["PRACTICE_CODE", "REGION"],
      ¬(strHasSub "GP" c = true ∧
        (strHasSub "HC" c = true ∨ strHasSub "HEADCOUNT" c = true))) ∧
    (identify_gp_columns ["PRACTICE_CODE", "REGION"]).practice_code.isSome =
      true ∧
    (identify_gp_columns ["PRACTICE_CODE", "REGION"]).gp_fte = none ∧
    (identify_gp_columns ["PRACTICE_CODE", "REGION"]).gp_hc = none :=
  ⟨by decide, by decide, by decide,
    (C4_identify_columns _).1 (by decide),
    (C4_identify_columns _).2.1 (by decide),
    (C4_identify_columns _).2.2 (by decide)⟩

/-! ## C1 / C9: the per-100k ratio computation -/

/-- C1 counterexample: a local-authority row with `GP_FTE = 50` and
`Population = 0` gets the value `+inf` from lines 654-657 — which pandas
does NOT treat as a missing value — rather than a missing value as the
claim states. -/
theorem C1_counterexample :
    ratio_per_100k (.num 50) (popCell (some 0)) = .pinf ∧
    (ratio_per_100k (.num 50) (popCell (some 0))).isna = false := by
  constructor <;> rfl

/-- C1 amended: the ratio equals metric ÷ population × 100,000 rounded
(half-to-even) to one decimal place whenever the population is present and
non-zero; a missing population propagates to a missing ratio; a zero
population with a positive metric yields `+inf` (a non-missing value), and
in every case the computation is total (no crash). -/
theorem C1_ratio_amended (m : ℚ) (p : ℚ) (hp : p ≠ 0) :
    ratio_per_100k (.num m) (popCell (some p)) =
      .num ((roundHalfEven (m / p * 100000 * 10) : ℚ) / 10) ∧
    (ratio_per_100k (.num m) (popCell none)).isna = true ∧
    (0 < m → ratio_per_100k (.num m) (popCell (some 0)) = .pinf ∧
      (ratio_per_100k (.num m) (popCell (some 0))).isna = false) := by
  refine ⟨?_, rfl, ?_⟩
  · simp [ratio_per_100k, popCell, PVal.div, PVal.mul, PVal.round1, hp]
  · intro hm
    have hm0 : m ≠ 0 := ne_of_gt hm
    constructor
    · simp [ratio_per_100k, popCell, PVal.div, PVal.mul, PVal.round1, hm0, hm]
    · simp [ratio_per_100k, popCell, PVal.div, PVal.mul, PVal.round1,
        PVal.isna, hm0, hm]

/-- Witness for C1 amended at `m = 50`, `p = 200000`. -/
theorem C1_ratio_amended_witness :
    (200000 : ℚ) ≠ 0 ∧
    (ratio_per_100k (.num 50) (popCell (some 200000)) =
      .num ((roundHalfEven ((50 : ℚ) / 200000 * 100000 * 10) : ℚ) / 10) ∧
    (ratio_per_100k (.num 50) (popCell none)).isna = true ∧
    ((0 : ℚ) < 50 → ratio_per_100k (.num 50) (popCell (some 0)) = .pinf ∧
      (ratio_per_100k (.num 50) (popCell (some 0))).isna = false)) :=
  ⟨by norm_num, C1_ratio_amended 50 200000 (by norm_num)⟩

/-- C9: with `GP_FTE = 50` and `Population = 200,000` the computed
`GP_FTE_per_100k` is exactly `25.0`. -/
theorem C9_ratio_exact :
    ratio_per_100k (.num 50) (popCell (some 200000)) = .num 25 := by
  have h1 : ((50 : ℚ) / 200000) = 1 / 4000 := by norm_num
  simp only [ratio_per_100k, popCell, PVal.div, PVal.mul, PVal.round1]
  norm_num [roundHalfEven, Int.fract]

/-! ## C2 / C3: aggregation -/

/-- The three-practice workforce table of the end-to-end scenario:
practices `A`, `B`, `C` with FTEs `2.0`, `3.0`, `5.0`; `A` and `B`
resolved to local authority `X`, `C` unmatched. -/
def scenarioRows : List WRow :=
  [⟨"A", some "X", some 2, none⟩,
   ⟨"B", some "X", some 3, none⟩,
   ⟨"C", none, some 5, none⟩]

/-- C2: the pipeline aggregates the scenario table to exactly one output
row, for `X`, with `Num_Practices = 2` and `GP_FTE = 5.0` (practice `C`
excluded), and reports an unmatched count of `1`. -/
theorem C2_end_to_end :
    aggregateByLA scenarioRows =
      [{ LA_Code := "X", Num_Practices := 2, GP_Headcount := 0,
         GP_FTE := 5 }] ∧
    countUnmatched scenarioRows = 1 := by
  refine ⟨?_, by decide⟩
  simp only [aggregateByLA, lauaKeys, matchedRows, groupRows, sumOpt,
    numPractices, scenarioRows]
  norm_num [List.filter_cons, List.filterMap_cons, List.dedup_cons_of_mem,
    List.dedup_cons_of_not_mem]
  decide

theorem list_toFinset_map {α β : Type} [DecidableEq α] [DecidableEq β]
    (f : α → β) (l : List α) : (l.map f).toFinset = l.toFinset.image f := by
  induction l with
  | nil => simp
  | cons a t ih => simp [ih]

theorem list_toFinset_dedup {α : Type} [DecidableEq α] (l : List α) :
    l.dedup.toFinset = l.toFinset := by
  ext a
  simp [List.mem_dedup]

/-- Splitting the distinct elements of a list of pairs along the fibers of
the first component: summing, over the distinct first components, the
number of distinct second components of each fiber counts exactly the
distinct pairs. -/
theorem sum_fiber_card (P : List (String × String)) :
    (((P.map Prod.fst).dedup).map
      (fun k =>
        ((P.filter (fun p => p.1 == k)).map Prod.snd).toFinset.card)).sum
    = P.toFinset.card := by
  rw [← List.sum_toFinset _ (List.nodup_dedup _), list_toFinset_dedup]
  have h1 : P.toFinset.card =
      ∑ k ∈ (P.map Prod.fst).toFinset,
        (P.toFinset.filter (fun p => p.1 = k)).card := by
    refine Finset.card_eq_sum_card_fiberwise ?_
    intro p hp
    rw [List.mem_toFinset] at hp
    rw [list_toFinset_map, Finset.mem_image]
    exact ⟨p, List.mem_toFinset.mpr hp, rfl⟩
  rw [h1]
  refine Finset.sum_congr rfl ?_
  intro k _
  rw [list_toFinset_map, List.toFinset_filter]
  have hpred : P.toFinset.filter (fun p => (p.1 == k) = true) =
      P.toFinset.filter (fun p => p.1 = k) := by
    refine Finset.filter_congr ?_
    intro x _
    simp
  rw [hpred, Finset.card_image_of_injOn]
  intro a ha b hb hab
  rw [Finset.mem_coe, Finset.mem_filter] at ha hb
  exact Prod.ext (ha.2.trans hb.2.symm) hab

theorem matchedRows_cons (r : WRow) (t : List WRow) :
    matchedRows (r :: t) =
      if r.laua.isSome then r :: matchedRows t else matchedRows t := by
  simp [matchedRows, List.filter_cons]

theorem matchedPairs_cons (r : WRow) (t : List WRow) :
    matchedPairs (r :: t) =
      match r.laua with
      | none => matchedPairs t
      | some a => (a, r.code) :: matchedPairs t := by
  rw [matchedPairs, List.filterMap_cons]
  cases r.laua <;> rfl

theorem groupRows_cons (r : WRow) (t : List WRow) (k : String) :
    groupRows (r :: t) k =
      if r.laua == some k then r :: groupRows t k else groupRows t k := by
  rw [groupRows, groupRows, matchedRows_cons]
  cases h : r.laua with
  | none => simp
  | some a => simp [List.filter_cons, h]

theorem bridge_keys (rows : List WRow) :
    (matchedRows rows).filterMap (fun r => r.laua) =
      (matchedPairs rows).map Prod.fst := by
  induction rows with
  | nil => rfl
  | cons r t ih =>
    rw [matchedRows_cons, matchedPairs_cons]
    cases h : r.laua with
    | none => exact ih
    | some a =>
      simp only [Option.isSome_some, if_true, List.filterMap_cons, h,
        List.map_cons]
      exact congrArg (a :: ·) ih

theorem bridge_group (rows : List WRow) (k : String) :
    (groupRows rows k).map WRow.code =
      ((matchedPairs rows).filter (fun p => p.1 == k)).map Prod.snd := by
  induction rows with
  | nil => rfl
  | cons r t ih =>
    rw [groupRows_cons, matchedPairs_cons]
    cases h : r.laua with
    | none => exact ih
    | some a =>
      have hbeq : ((some a : Option String) == some k) = (a == k) := rfl
      rw [hbeq, List.filter_cons]
      cases hak : (a == k) with
      | true =>
        simp only [if_true, List.map_cons]
        exact congrArg (r.code :: ·) ih
      | false => exact ih

/-- C3 counterexample: the same practice code `P` matched under two
different local authorities `X` and `Y` is counted once in each group, so
the `Num_Practices` total is 2 while only one distinct practice code
occurs among the matched rows. -/
theorem C3_counterexample :
    ((aggregateByLA
        [⟨"P", some "X", none, none⟩, ⟨"P", some "Y", none, none⟩]).map
      SummaryRow.Num_Practices).sum = 2 ∧
    ((matchedRows
        [⟨"P", some "X", none, none⟩, ⟨"P", some "Y", none, none⟩]).map
      WRow.code).dedup.length = 1 := by
  constructor <;> decide

/-- C3 amended: for every workforce table, the sum of `Num_Practices` over
the aggregated output rows equals the number of distinct
(local authority, practice code) pairs among the matched rows — hence the
number of distinct matched practice codes when no practice code is matched
under two local authorities, and not the number of matched rows when a
practice has duplicate rows. -/
theorem C3_sum_num_practices_amended (rows : List WRow) :
    ((aggregateByLA rows).map SummaryRow.Num_Practices).sum =
      (matchedPairs rows).toFinset.card := by
  unfold aggregateByLA
  rw [List.map_map]
  have hcomp : (SummaryRow.Num_Practices ∘ fun k =>
      ({ LA_Code := k
         Num_Practices := numPractices (groupRows rows k)
         GP_Headcount := sumOpt ((groupRows rows k).map WRow.hc)
         GP_FTE := sumOpt ((groupRows rows k).map WRow.fte) } : SummaryRow))
      = fun k => numPractices (groupRows rows k) := rfl
  rw [hcomp]
  unfold lauaKeys
  rw [bridge_keys]
  rw [← sum_fiber_card (matchedPairs rows)]
  refine congrArg List.sum ?_
  refine List.map_congr_left ?_
  intro k _
  rw [numPractices, bridge_group, ← List.card_toFinset]

/-! ## C6: population loader failure behaviour -/

/-- C6 counterexample: with the primary download failing (and a parsable
workbook notionally available elsewhere), the loader attempts exactly the
one primary URL — there is no ordered list of fallback URLs to try — and
returns the empty table. -/
theorem C6_counterexample :
    load_population_trace (fun _ => Except.error "connection failed")
        (Except.ok [("E06000001", (100000 : ℚ))]) = ([POPULATION_URL], []) ∧
    (load_population_trace (fun _ => Except.error "connection failed")
        (Except.ok [("E06000001", (100000 : ℚ))])).1.length = 1 :=
  ⟨rfl, rfl⟩

/-- C6 amended: the population loader downloads from a single primary URL
(it has no fallback URLs); a failed download and a failed parse are both
non-fatal, each yielding an empty table, and the loader always returns
(the pipeline continues rather than aborting). -/
theorem C6_population_failure_amended
    (download : String → Except String Unit)
    (parse : Except String (List (String × ℚ))) :
    (load_population_trace download parse).1 = [POPULATION_URL] ∧
    (∀ e, download POPULATION_URL = Except.error e →
      (load_population_trace download parse).2 = []) ∧
    (∀ e, parse = Except.error e →
      (load_population_trace download parse).2 = []) := by
  unfold load_population_trace
  cases hd : download POPULATION_URL with
  | error e => exact ⟨rfl, fun _ _ => rfl, fun _ _ => rfl⟩
  | ok u =>
    cases hp : parse with
    | error e =>
      exact ⟨rfl, fun e' he' => absurd he' (by simp), fun _ _ => rfl⟩
    | ok t =>
      exact ⟨rfl, fun e' he' => absurd he' (by simp),
        fun e' he' => absurd he' (by simp)⟩

/-- Witness for C6 amended at concrete oracles: a timed-out download
yields the empty table after attempting only the primary URL. -/
theorem C6_population_failure_amended_witness :
    (load_population_trace (fun _ => Except.error "timeout")
        (Except.ok [("E06000001", (100000 : ℚ))])).1 = [POPULATION_URL] ∧
    (load_population_trace (fun _ => Except.error "timeout")
        (Except.ok [("E06000001", (100000 : ℚ))])).2 = [] :=
  ⟨(C6_population_failure_amended _ _).1,
    (C6_population_failure_amended _ _).2.1 "timeout" rfl⟩

/-! ## C7: output columns when the population table is empty -/

/-- C7: whenever the population table is empty, the final output still has
the local-authority code and name, practice count, and (when the metric
columns were identified) headcount and FTE columns, and has neither
`GP_FTE_per_100k` nor `GP_HC_per_100k`. -/
theorem C7_population_empty_columns (hasFte hasHc : Bool)
    (population : List (String × ℚ)) (h : population = []) :
    "LA_Code" ∈ finalColumns hasFte hasHc population ∧
    "LA_Name" ∈ finalColumns hasFte hasHc population ∧
    "Num_Practices" ∈ finalColumns hasFte hasHc population ∧
    (hasFte = true → "GP_FTE" ∈ finalColumns hasFte hasHc population) ∧
    (hasHc = true → "GP_Headcount" ∈ finalColumns hasFte hasHc population) ∧
    "GP_FTE_per_100k" ∉ finalColumns hasFte hasHc population ∧
    "GP_HC_per_100k" ∉ finalColumns hasFte hasHc population := by
  subst h
  revert hasFte hasHc
  decide

/-- Witness for C7 with both metric columns present and the empty
population table. -/
theorem C7_population_empty_columns_witness :
    ([] : List (String × ℚ)) = [] ∧
    ("LA_Code" ∈ finalColumns true true ([] : List (String × ℚ)) ∧
    "LA_Name" ∈ finalColumns true true ([] : List (String × ℚ)) ∧
    "Num_Practices" ∈ finalColumns true true ([] : List (String × ℚ)) ∧
    (true = true → "GP_FTE" ∈ finalColumns true true ([] : List (String × ℚ))) ∧
    (true = true →
      "GP_Headcount" ∈ finalColumns true true ([] : List (String × ℚ))) ∧
    "GP_FTE_per_100k" ∉ finalColumns true true ([] : List (String × ℚ)) ∧
    "GP_HC_per_100k" ∉ finalColumns true true ([] : List (String × ℚ))) :=
  ⟨rfl, C7_population_empty_columns true true [] rfl⟩

/-! ## C8: deduplication before the joins -/

/-- C8 counterexample: two active epraccur rows sharing practice code `P1`
survive `load_practice_postcodes` (which does not deduplicate by
organisation code), and the left join multiplies the single workforce row
`P1` into two rows. -/
theorem C8_counterexample :
    (load_practice_postcodes
      [⟨"P1", "Practice One", "AA1 1AA", "A", "4"⟩,
       ⟨"P1", "Practice One Branch", "BB2 2BB", "A", "4"⟩]).length = 2 ∧
    (leftJoinPostcodes ["P1"]
      (load_practice_postcodes
        [⟨"P1", "Practice One", "AA1 1AA", "A", "4"⟩,
         ⟨"P1", "Practice One Branch", "BB2 2BB", "A", "4"⟩])).length = 2 := by
  constructor <;> rfl

theorem dropDupsBy_spec {α : Type} (f : α → String) (l : List α)
    (seen : List String) :
    ((dropDupsBy f l seen).map f).Nodup ∧
    ∀ y ∈ (dropDupsBy f l seen).map f, y ∉ seen := by
  induction l generalizing seen with
  | nil => exact ⟨List.nodup_nil, by simp [dropDupsBy]⟩
  | cons x xs ih =>
    by_cases h : seen.contains (f x) = true
    · simp only [dropDupsBy]
      rw [if_pos h]
      exact ih seen
    · simp only [dropDupsBy]
      rw [if_neg h]
      have ihx := ih (f x :: seen)
      constructor
      · rw [List.map_cons, List.nodup_cons]
        exact ⟨fun hmem => ihx.2 _ hmem (List.mem_cons_self _ _), ihx.1⟩
      · rw [List.map_cons]
        intro y hy
        rcases List.mem_cons.mp hy with h1 | h1
        · intro hc
          rw [h1] at hc
          exact h (List.contains_iff_exists_mem_beq.mpr ⟨f x, hc, by simp⟩)
        · intro hseen
          exact ihx.2 _ h1 (List.mem_cons_of_mem _ hseen)

theorem filter_key_length_le_one {α : Type} (f : α → String) (l : List α)
    (hn : (l.map f).Nodup) (y : String) :
    (l.filter (fun x => f x == y)).length ≤ 1 := by
  induction l with
  | nil => simp
  | cons a t ih =>
    rw [List.map_cons, List.nodup_cons] at hn
    by_cases h : (f a == y) = true
    · have ht : t.filter (fun x => f x == y) = [] := by
        rw [List.filter_eq_nil_iff]
        intro b hb hby
        rw [beq_iff_eq] at h hby
        exact hn.1 (List.mem_map.mpr ⟨b, hb, by rw [hby, h]⟩)
      rw [@List.filter_cons_of_pos _ (fun x => f x == y) a t h, ht]
      simp
    · rw [@List.filter_cons_of_neg _ (fun x => f x == y) a t h]
      exact ih hn.2

theorem load_nspl_key_nodup (raw : List (String × String)) :
    ((load_nspl raw).map NsplRow.postcode_clean).Nodup :=
  (dropDupsBy_spec _ _ []).1

theorem load_nspl_filter_length_le_one (raw : List (String × String))
    (pc : Option String) :
    ((load_nspl raw).filter
      (fun n => (some n.postcode_clean : Option String) == pc)).length ≤ 1 := by
  cases pc with
  | none =>
    have he : (load_nspl raw).filter
        (fun n => (some n.postcode_clean : Option String) == none) = [] := by
      rw [List.filter_eq_nil_iff]
      intro b _ hb
      exact Bool.false_ne_true hb
    rw [he]
    decide
  | some y =>
    exact filter_key_length_le_one NsplRow.postcode_clean _
      (load_nspl_key_nodup raw) y

/-- C8 amended: the loaded practice→postcode table is NOT deduplicated by
practice code (a duplicate practice code multiplies the workforce row, as
the counterexample shows); the table that is deduplicated before its join
is the NSPL postcode→LA lookup, keyed by normalised postcode, so the
postcode→LA left merge never changes the workforce row count. -/
theorem C8_nspl_dedup_amended (raw : List (String × String))
    (w : List (Option String)) :
    (leftJoinNspl w (load_nspl raw)).length = w.length := by
  induction w with
  | nil => rfl
  | cons pc t ih =>
    have hsplit : leftJoinNspl (pc :: t) (load_nspl raw) =
        (match (load_nspl raw).filter
            (fun (n : NsplRow) => (some n.postcode_clean : Option String) == pc) with
          | [] => [(pc, none)]
          | ms => ms.map fun (n : NsplRow) => (pc, some n.laua)) ++
          leftJoinNspl t (load_nspl raw) := by
      rw [leftJoinNspl, List.flatMap_cons]
      rfl
    have hle := load_nspl_filter_length_le_one raw pc
    have hlen1 : (match (load_nspl raw).filter
        (fun (n : NsplRow) => (some n.postcode_clean : Option String) == pc) with
      | [] => [(pc, none)]
      | ms => ms.map fun (n : NsplRow) => (pc, some n.laua)).length = 1 := by
      cases hf : (load_nspl raw).filter
          (fun (n : NsplRow) => (some n.postcode_clean : Option String) == pc) with
      | nil => rfl
      | cons m ms =>
        cases ms with
        | nil => rfl
        | cons m2 ms2 =>
          rw [hf] at hle
          exact absurd hle (by simp)
    rw [hsplit, List.length_append, hlen1, ih, List.length_cons,
      Nat.add_comm]
